import Mathlib

/-!
Shallow embedding of the tinysynth audio engine core (oscillator family,
PolyBLEP edge correction, phase accumulator, gain module, and the
ModularSystem patch-graph engine) and proofs checking the natural-language
specification against it.

Samples and parameters are modelled as exact rationals (`ℚ`); the C++
code computes in `float`/`double`, but every claim settled here is about
the algebraic structure of the computations, not about rounding.
-/

namespace tinysynth

/-- C `fmod(x, w)`: remainder with the sign of the dividend,
`x - w * trunc(x / w)` (truncation toward zero). Used by
`detail::phasorComputeSample` (AudioEngine.h). -/
def fmodQ (x w : ℚ) : ℚ :=
  if 0 ≤ x then x - w * (⌊x / w⌋ : ℤ) else x + w * (⌊(-x) / w⌋ : ℤ)

/-- `Oscillator::polyBlep(time, deltaTime)` (part_003 lines 463-473):
the PolyBLEP edge-correction function, translated branch for branch. -/
def polyBlep (time deltaTime : ℚ) : ℚ :=
  if time < deltaTime then
    let t := time / deltaTime
    t + t - t * t - 1
  else if time > 1 - deltaTime then
    let t := (time - 1) / deltaTime
    t * t + t + t + 1
  else 0

/-- State of the `Oscillator` base class (Oscillator.h lines 104-108,
part_003 lines 475-479): frequency, amplitude and phase fields with their
construction-time defaults. -/
structure OscState where
  frequency : ℚ := 440
  amplitude : ℚ := 1
  phase : ℚ := 0
deriving DecidableEq

/-- `Oscillator::setFrequency` (Oscillator.h lines 23-26). The C++ body is
`assert(frequency > 0); m_frequency = frequency;` - the bound is a debug
assertion only (a no-op when assertions are disabled), and the assignment
is unconditional, so the release semantics store the value as given. -/
def setFrequency (s : OscState) (frequency : ℚ) : OscState :=
  { s with frequency := frequency }

/-- `Oscillator::setAmplitude` (Oscillator.h lines 28-31): debug
`assert(amplitude >= 0)` followed by an unconditional store. -/
def setAmplitude (s : OscState) (amplitude : ℚ) : OscState :=
  { s with amplitude := amplitude }

/-- `Oscillator::setPhase` (Oscillator.h line 33). -/
def setPhase (s : OscState) (phase : ℚ) : OscState :=
  { s with phase := phase }

/-- `Oscillator::setParameter` (Oscillator.h lines 35-45): dispatch on the
parameter name; an unknown name throws `std::invalid_argument`, modelled
as `Except.error`. -/
def oscSetParameter (s : OscState) (name : String) (value : ℚ) :
    Except String OscState :=
  if name == "frequency" then .ok (setFrequency s value)
  else if name == "amplitude" then .ok (setAmplitude s value)
  else if name == "phase" then .ok (setPhase s value)
  else .error ("Unknown parameter: " ++ name)

/-- `Oscillator::getParameter` (Oscillator.h lines 47-58): unknown names
throw `std::invalid_argument`. -/
def oscGetParameter (s : OscState) (name : String) : Except String ℚ :=
  if name == "frequency" then .ok s.frequency
  else if name == "amplitude" then .ok s.amplitude
  else if name == "phase" then .ok s.phase
  else .error ("Unknown parameter: " ++ name)

/-- `Oscillator::reset` (Oscillator.h line 85, part_003 line 442):
`m_phase = 0;` - only the phase field is written. -/
def oscReset (s : OscState) : OscState :=
  { s with phase := 0 }

/-- State of `PulseOsc` (part_003 lines 823-989): the inherited oscillator
fields plus `m_pulseWidth`, constructed as `0.5`. `PulseOsc` does not
override `reset`, so the base-class `reset` applies to this state too. -/
structure PulseOscState where
  frequency : ℚ := 440
  amplitude : ℚ := 1
  phase : ℚ := 0
  pulseWidth : ℚ := 1/2
deriving DecidableEq

/-- The base-class `Oscillator::reset` (part_003 line 442) acting on a
`PulseOsc`: `m_phase = 0;` touches no other field. -/
def pulseReset (s : PulseOscState) : PulseOscState :=
  { s with phase := 0 }

/-- `SineOsc::wrapPhaseScalar` (Oscillator.h lines 289-293), parameterized
by the value of `Constants::twoPiConstant`: a single conditional
subtraction of the period. -/
def wrapPhaseScalar (twoPi phase : ℚ) : ℚ :=
  if twoPi ≤ phase then phase - twoPi else phase

/-- `detail::phasorComputeSample` (AudioEngine.h lines 52-59):
`phase += phase_inc; phase = fmod(phase, wrap); return phase;`.
The returned sample equals the updated stored phase. -/
def phasorComputeSample (phase phaseInc wrap : ℚ) : ℚ :=
  fmodQ (phase + phaseInc) wrap

/-- The `while (n > 0)` loop body of `Phasor::perform(out, n)`
(AudioEngine.h lines 141-153): write `computeSample(phase, phase_inc_)`
for each of the `n` samples. Returns the written samples and the final
phase. -/
def performLoop (phaseInc wrap : ℚ) : Nat → ℚ → List ℚ × ℚ
  | 0, phase => ([], phase)
  | n + 1, phase =>
    let p := phasorComputeSample phase phaseInc wrap
    let r := performLoop phaseInc wrap n p
    (p :: r.1, r.2)

/-- `detail::phasorPerform<n>(out, phase, phase_inc, wrap)`
(AudioEngine.h lines 73-80): the template-recursion unrolled loop,
one `phasorComputeSample` per recursion step. -/
def phasorPerformT (phaseInc wrap : ℚ) : Nat → ℚ → List ℚ × ℚ
  | 0, phase => ([], phase)
  | n + 1, phase =>
    let p := phasorComputeSample phase phaseInc wrap
    let r := phasorPerformT phaseInc wrap n p
    (p :: r.1, r.2)

/-- The `Phasor` state (AudioEngine.h lines 199-202): `phase_`,
`phase_inc_` and `freq_factor`. The period `wrap` is a template argument
and is passed to the member functions below as an explicit parameter. -/
structure Phasor where
  phase : ℚ
  phaseInc : ℚ
  freqFactor : ℚ
deriving DecidableEq

/-- `Phasor::perform(out, n)` (AudioEngine.h lines 141-153): scalar
per-sample mode. The output buffer is modelled as a list whose first `n`
entries are overwritten; entries past `n` keep their previous contents. -/
def Phasor.perform (wrap : ℚ) (p : Phasor) (out : List ℚ) (n : Nat) :
    Phasor × List ℚ :=
  let r := performLoop p.phaseInc wrap n p.phase
  ({ p with phase := r.2 }, r.1 ++ out.drop n)

/-- The `while (n > 0)` group loop of `Phasor::perform8` (AudioEngine.h
lines 155-168): `g` groups of `detail::phasorPerform<8>`. -/
def perform8Groups (phaseInc wrap : ℚ) : Nat → ℚ → List ℚ × ℚ
  | 0, phase => ([], phase)
  | g + 1, phase =>
    let blk := phasorPerformT phaseInc wrap 8 phase
    let rest := perform8Groups phaseInc wrap g blk.2
    (blk.1 ++ rest.1, rest.2)

/-- `Phasor::perform8(out, n)` (AudioEngine.h lines 155-168): the code
executes `n /= 8` and then runs whole groups of 8, so only the first
`8 * (n / 8)` output entries are written; the rest keep their previous
contents. -/
def Phasor.perform8 (wrap : ℚ) (p : Phasor) (out : List ℚ) (n : Nat) :
    Phasor × List ℚ :=
  let r := perform8Groups p.phaseInc wrap (n / 8) p.phase
  ({ p with phase := r.2 }, r.1 ++ out.drop (8 * (n / 8)))

/-- `GainModule` state (part_004 line 101): the single `m_gain` field,
constructed as `1.0`. -/
structure GainModuleState where
  gain : ℚ := 1
deriving DecidableEq

/-- `GainModule::MAX_GAIN` (part_004 line 39). -/
def MAX_GAIN : ℚ := 10

/-- `GainModule::setParameter` (part_004 lines 71-75): only the name
`"Gain"` has any effect (clamped into `[0, MAX_GAIN]`); every other name
falls through silently - no exception, no state change. -/
def gainSetParameter (g : GainModuleState) (name : String) (value : ℚ) :
    GainModuleState :=
  if name == "Gain" then { g with gain := min (max value 0) MAX_GAIN } else g

/-- `GainModule::getParameter` (part_004 lines 77-82): returns `m_gain`
for `"Gain"` and a literal `0.0` for every other name - no exception. -/
def gainGetParameter (g : GainModuleState) (name : String) : ℚ :=
  if name == "Gain" then g.gain else 0

/-- A polymorphic `Module<sample_type>` instance as `ModularSystem` sees
it through the virtual interface: declared slot counts and the effect of
`process` - given the gathered optional input buffers and `numFrames`,
the contents `run` leaves in the single, aliased output buffer of the node.
All output slot pointers passed by `ModularSystem::process` alias the
single shared buffer of the module (part_004 lines 250-254). -/
structure ModuleImpl where
  numInputs : Nat
  numOutputs : Nat
  run : List (Option (List ℚ)) → Nat → List ℚ

/-- A `Connection` (part_004 lines 153-158). The struct declares
`std::vector<unsigned int>` index fields, but every use site - the
aggregate initialization in `connect` (line 204) and the field accesses
`conn.outputIndex` / `conn.inputIndex` in `disconnect` and `process`
(lines 214-215, 245) - treats them as single indices, so the embedding
uses scalar index fields. -/
structure Connection where
  fromModule : String
  outputIndex : Nat
  toModule : String
  inputIndex : Nat
deriving DecidableEq

/-- `ModularSystem` state (part_004 lines 160-162): the module registry,
the connection list, and the per-module audio buffers. `m_modules` is a
`std::unordered_map` whose iteration order is unspecified; the embedding
fixes a deterministic registry order (an association list) that plays the
role of that iteration order throughout `process`. -/
structure ModularSystem where
  modules : List (String × ModuleImpl)
  connections : List Connection
  audioBuffers : List (List ℚ)

/-- `std::distance(m_modules.begin(), m_modules.find(name))`: the
position of a module in the registry iteration order (part_004 lines
244, 251). -/
def moduleIndex (registry : List (String × ModuleImpl)) (name : String) : Nat :=
  registry.findIdx (fun m => m.1 == name)

/-- `ModularSystem::addModule` (part_004 lines 165-172): duplicate names
throw; otherwise the module is inserted into the registry. -/
def ModularSystem.addModule (sys : ModularSystem) (name : String)
    (m : ModuleImpl) : Except String ModularSystem :=
  if sys.modules.any (fun p => p.1 == name) then
    .error ("Module with name " ++ name ++ " already exists.")
  else
    .ok { sys with modules := sys.modules ++ [(name, m)] }

/-- `ModularSystem::connect` (part_004 lines 192-205): both endpoint
names are checked for existence; the indices are never range-checked; on
success the connection is appended with `push_back`. -/
def ModularSystem.connect (sys : ModularSystem) (fromModule : String)
    (outputIndex : Nat) (toModule : String) (inputIndex : Nat) :
    Except String ModularSystem :=
  if ¬ sys.modules.any (fun p => p.1 == fromModule) then
    .error ("Module " ++ fromModule ++ " does not exist.")
  else if ¬ sys.modules.any (fun p => p.1 == toModule) then
    .error ("Module " ++ toModule ++ " does not exist.")
  else
    .ok { sys with connections :=
      sys.connections ++ [⟨fromModule, outputIndex, toModule, inputIndex⟩] }

/-- `std::find_if` followed by `erase` in `ModularSystem::disconnect`:
remove the first element equal to the given connection, if any. -/
def eraseFirst : List Connection → Connection → List Connection
  | [], _ => []
  | x :: xs, c => if x == c then xs else x :: eraseFirst xs c

/-- `ModularSystem::disconnect` (part_004 lines 207-221): erases the
first exact match; a no-op when the tuple is absent. Returns `void` in
the source - it never fails. -/
def ModularSystem.disconnect (sys : ModularSystem) (fromModule : String)
    (outputIndex : Nat) (toModule : String) (inputIndex : Nat) :
    ModularSystem :=
  { sys with connections :=
      eraseFirst sys.connections ⟨fromModule, outputIndex, toModule, inputIndex⟩ }

/-- `std::vector::resize(n)` on a sample buffer: keeps the first `n`
existing samples and value-initializes (zeroes) any growth. -/
def resizeList (l : List ℚ) (n : Nat) : List ℚ :=
  l.take n ++ List.replicate (n - l.length) 0

/-- The buffer (re)sizing prologue of `ModularSystem::process` (part_004
lines 225-229): `m_audioBuffers.resize(m_modules.size())` then each
buffer is resized to `numFrames`. -/
def resizeBuffers (bufs : List (List ℚ)) (count n : Nat) : List (List ℚ) :=
  (bufs.take count ++ List.replicate (count - bufs.length) []).map
    (fun b => resizeList b n)

/-- The input-gathering loop of `ModularSystem::process` (part_004 lines
236-248): `inputs` starts as `numInputs` copies of `nullopt`; then, for
each connection (in connection-list order) whose `toModule` is this
module and whose `fromModule` exists, the slot `conn.inputIndex` is
ASSIGNED the buffer of the producer - a later matching connection overwrites
an earlier one. The C++ `inputs[conn.inputIndex]` is unchecked indexing;
`List.set` leaves the list unchanged for an out-of-range index. -/
def setupStep (registry : List (String × ModuleImpl))
    (bufs : List (List ℚ)) (name : String)
    (inputs : List (Option (List ℚ))) (conn : Connection) :
    List (Option (List ℚ)) :=
  if conn.toModule == name &&
      registry.any (fun m => m.1 == conn.fromModule) then
    inputs.set conn.inputIndex
      (some (bufs.getD (moduleIndex registry conn.fromModule) []))
  else inputs

def setupInputs (conns : List Connection)
    (registry : List (String × ModuleImpl)) (bufs : List (List ℚ))
    (name : String) (numInputs : Nat) : List (Option (List ℚ)) :=
  conns.foldl (setupStep registry bufs name) (List.replicate numInputs none)

/-- The connections that the input-gathering loop applies to slot `k` of
the module called `name`: those targeting `(name, k)` whose source module
exists, in connection-list order. -/
def slotConns (conns : List Connection)
    (registry : List (String × ModuleImpl)) (name : String) (k : Nat) :
    List Connection :=
  conns.filter (fun c =>
    (c.toModule == name && registry.any (fun m => m.1 == c.fromModule)) &&
      c.inputIndex == k)

/-- The per-module loop of `ModularSystem::process` (part_004 lines
232-258): for each module in registry order, gather its inputs from the
CURRENT buffer contents, invoke its `process`, and store the (aliased)
output buffer back at the buffer index of the module. A module with no output
slots receives no output pointer and cannot write its buffer. The input
buffers are passed by value here; the C++ passes live pointers, which
coincides with this as long as a module does not read a buffer it is
itself writing (no self-connection). -/
def processModules (conns : List Connection)
    (registry : List (String × ModuleImpl)) (numFrames : Nat) :
    List (String × ModuleImpl) → List (List ℚ) → List (List ℚ)
  | [], bufs => bufs
  | (name, m) :: rest, bufs =>
    let inputs := setupInputs conns registry bufs name m.numInputs
    let bufs2 :=
      if m.numOutputs == 0 then bufs
      else bufs.set (moduleIndex registry name) (m.run inputs numFrames)
    processModules conns registry numFrames rest bufs2

/-- `ModularSystem::process(numFrames)` (part_004 lines 223-259): resize
the buffers, then run every module once. The source body contains no
cycle detection, no topological sort and no error path of any kind - the
function always runs to completion and returns normally. -/
def ModularSystem.process (sys : ModularSystem) (numFrames : Nat) :
    ModularSystem :=
  let bufs := resizeBuffers sys.audioBuffers sys.modules.length numFrames
  { sys with audioBuffers :=
      processModules sys.connections sys.modules numFrames sys.modules bufs }

/-- A generator UGen emitting a constant sample value, as in the specification
own test graphs (a node emitting `0.3`, `0.4` or `0.5` per sample): no
inputs, one output, `process` fills the block with the constant. -/
def constModule (c : ℚ) : ModuleImpl :=
  ⟨0, 1, fun _ n => List.replicate n c⟩

/-- A pure pass-through UGen (a `GainModule` with gain `1`): one input,
one output; an unconnected input contributes nothing (silence). -/
def passModule : ModuleImpl :=
  ⟨1, 1, fun inputs n => (inputs.getD 0 none).getD (List.replicate n 0)⟩

/-- The two-producer graph of the summing claim: `"a"` emits `0.3`,
`"b"` emits `0.4`, and both are connected into input slot `0` of the
pass-through node `"c"`. -/
def sumSys : ModularSystem :=
  { modules := [("a", constModule (3/10)), ("b", constModule (2/5)),
                ("c", passModule)],
    connections := [⟨"a", 0, "c", 0⟩, ⟨"b", 0, "c", 0⟩],
    audioBuffers := [] }

/-- The two-module feedback graph of the cycle claim:
`connect("a",0,"b",0)` and `connect("b",0,"a",0)`, both nodes
pass-throughs. -/
def cycleSys : ModularSystem :=
  { modules := [("a", passModule), ("b", passModule)],
    connections := [⟨"a", 0, "b", 0⟩, ⟨"b", 0, "a", 0⟩],
    audioBuffers := [] }

/-- A two-module graph (each with one input and one output) for the
index-validation claim. -/
def twoModSys : ModularSystem :=
  { modules := [("a", passModule), ("b", passModule)],
    connections := [],
    audioBuffers := [] }

/-- A graph whose connection list already contains the tuple
`("x",0,"y",0)` followed by a second connection into the same slot, for
the connect/disconnect restoration claim. -/
def dupConnSys : ModularSystem :=
  { modules := [("x", passModule), ("y", passModule), ("z", passModule)],
    connections := [⟨"x", 0, "y", 0⟩, ⟨"z", 0, "y", 0⟩],
    audioBuffers := [] }

/-! ### Helper lemmas -/

theorem eraseFirst_of_not_mem (l : List Connection) (c : Connection)
    (h : c ∉ l) : eraseFirst l c = l := by
  induction l with
  | nil => rfl
  | cons x xs ih =>
    have hxc : x ≠ c := by rintro rfl; exact h (List.mem_cons_self _ _)
    have hm : c ∉ xs := fun hx => h (List.mem_cons_of_mem _ hx)
    simp [eraseFirst, beq_eq_false_iff_ne.mpr hxc, ih hm]

theorem eraseFirst_append_self (l : List Connection) (c : Connection)
    (h : c ∉ l) : eraseFirst (l ++ [c]) c = l := by
  induction l with
  | nil => simp [eraseFirst]
  | cons x xs ih =>
    have hxc : x ≠ c := by rintro rfl; exact h (List.mem_cons_self _ _)
    have hm : c ∉ xs := fun hx => h (List.mem_cons_of_mem _ hx)
    simp [eraseFirst, beq_eq_false_iff_ne.mpr hxc, ih hm]

/-! ### Claim theorems -/

/-- C7: for every t in [0,1) and dt in (0, 1/2), the edge-correction
function polyBlep returns tp + tp - tp^2 - 1 with tp = t/dt when t < dt,
tp^2 + 2 tp + 1 with tp = (t-1)/dt when t > 1 - dt, and exactly 0
otherwise. -/
theorem polyBlep_spec (t dt : ℚ) (ht0 : 0 ≤ t) (ht1 : t < 1)
    (hdt0 : 0 < dt) (hdt : dt < 1/2) :
    (t < dt → polyBlep t dt = t/dt + t/dt - (t/dt)^2 - 1) ∧
    (t > 1 - dt →
      polyBlep t dt = ((t-1)/dt)^2 + 2*((t-1)/dt) + 1) ∧
    (dt ≤ t → t ≤ 1 - dt → polyBlep t dt = 0) := by
  refine ⟨fun h => ?_, fun h => ?_, fun h1 h2 => ?_⟩
  · simp only [polyBlep, if_pos h]; ring
  · have hnd : ¬ t < dt := by linarith
    simp only [polyBlep, if_neg hnd, if_pos h]; ring
  · have hnd : ¬ t < dt := not_lt.mpr h1
    have hnd2 : ¬ t > 1 - dt := not_lt.mpr h2
    simp only [polyBlep, if_neg hnd, if_neg hnd2]

/-- Witness for C7 at t = 1/100, dt = 1/50 (the first branch applies). -/
theorem polyBlep_spec_witness :
    (0:ℚ) ≤ 1/100 ∧ (1/100:ℚ) < 1 ∧ (0:ℚ) < 1/50 ∧ (1/50:ℚ) < 1/2 ∧
    (((1/100:ℚ) < 1/50 →
        polyBlep (1/100) (1/50) =
          (1/100)/(1/50) + (1/100)/(1/50) - ((1/100)/(1/50))^2 - 1) ∧
     ((1/100:ℚ) > 1 - 1/50 →
        polyBlep (1/100) (1/50) =
          (((1/100)-1)/(1/50))^2 + 2*(((1/100)-1)/(1/50)) + 1) ∧
     ((1/50:ℚ) ≤ 1/100 → (1/100:ℚ) ≤ 1 - 1/50 →
        polyBlep (1/100) (1/50) = 0)) :=
  ⟨by norm_num, by norm_num, by norm_num, by norm_num,
   polyBlep_spec (1/100) (1/50) (by norm_num) (by norm_num) (by norm_num)
     (by norm_num)⟩

/-- C4 counterexample: setParameter("frequency", -5) on a
default-constructed oscillator does NOT fail - it returns normally and
the stored frequency becomes -5 (it was 440). The C++ guard is
`assert(frequency > 0)`, a debug-only abort that is compiled out in
release builds and is in no build an error reported to the caller. -/
theorem oscSetParameter_negative_frequency_stored :
    oscSetParameter {} "frequency" (-5) =
      .ok { frequency := -5, amplitude := 1, phase := 0 } ∧
    (OscState.frequency {} : ℚ) = 440 ∧ ((-5:ℚ) ≠ 440) :=
  ⟨rfl, rfl, by norm_num⟩

/-- C4 amended: setParameter stores frequency and amplitude values
unconditionally - the domain bounds (frequency > 0, amplitude ≥ 0) are
enforced only by debug assertions, never reported to the caller; only an
unknown parameter name produces an InvalidParameter error. -/
theorem oscSetParameter_stores_unconditionally (s : OscState) (v : ℚ) :
    oscSetParameter s "frequency" v = .ok { s with frequency := v } ∧
    oscSetParameter s "amplitude" v = .ok { s with amplitude := v } :=
  ⟨rfl, rfl⟩

/-- C9: GainModule.setParameter with a name other than "Gain" silently
does nothing and raises no error; GainModule.getParameter with a name
other than "Gain" returns 0.0; the oscillators, in contrast, raise on an
unknown parameter name. -/
theorem gain_unknown_parameter_silent :
    (∀ (g : GainModuleState) (name : String) (v : ℚ), name ≠ "Gain" →
        gainSetParameter g name v = g ∧ gainGetParameter g name = 0) ∧
    (∀ (s : OscState) (name : String) (v : ℚ),
        name ≠ "frequency" → name ≠ "amplitude" → name ≠ "phase" →
        oscSetParameter s name v =
          .error ("Unknown parameter: " ++ name)) := by
  constructor
  · intro g name v h
    exact ⟨by simp [gainSetParameter, beq_eq_false_iff_ne.mpr h],
           by simp [gainGetParameter, beq_eq_false_iff_ne.mpr h]⟩
  · intro s name v h1 h2 h3
    simp [oscSetParameter, beq_eq_false_iff_ne.mpr h1,
      beq_eq_false_iff_ne.mpr h2, beq_eq_false_iff_ne.mpr h3]

/-- Witness for C9 at the unknown name "bogus". -/
theorem gain_unknown_parameter_silent_witness :
    ("bogus" ≠ "Gain") ∧
    gainSetParameter {} "bogus" 1 = {} ∧
    gainGetParameter {} "bogus" = 0 ∧
    ("bogus" ≠ "frequency") ∧
    oscSetParameter {} "bogus" 1 =
      .error ("Unknown parameter: " ++ "bogus") :=
  ⟨by decide,
   (gain_unknown_parameter_silent.1 {} "bogus" 1 (by decide)).1,
   (gain_unknown_parameter_silent.1 {} "bogus" 1 (by decide)).2,
   by decide,
   gain_unknown_parameter_silent.2 {} "bogus" 1 (by decide) (by decide)
     (by decide)⟩

/-- C10: reset() sets the stored phase to 0 and leaves frequency,
amplitude and (for Pulse) the pulse width at their current values. -/
theorem oscillator_reset_only_phase (s : OscState) (p : PulseOscState) :
    (oscReset s).phase = 0 ∧ (oscReset s).frequency = s.frequency ∧
    (oscReset s).amplitude = s.amplitude ∧
    (pulseReset p).phase = 0 ∧ (pulseReset p).frequency = p.frequency ∧
    (pulseReset p).amplitude = p.amplitude ∧
    (pulseReset p).pulseWidth = p.pulseWidth :=
  ⟨rfl, rfl, rfl, rfl, rfl, rfl, rfl⟩

/-- C3 counterexample: on a graph of two registered pass-through modules
(each declaring 1 input and 1 output), connect("a", 5, "b", 7) with both
indices out of range succeeds and appends the connection - no
IndexOutOfRange error, and the connection list changes. -/
theorem connect_out_of_range_accepted :
    (twoModSys.connect "a" 5 "b" 7).map (fun s => s.connections) =
      .ok [⟨"a", 5, "b", 7⟩] ∧
    passModule.numOutputs = 1 ∧ passModule.numInputs = 1 ∧
    (1:Nat) < 5 ∧ (1:Nat) < 7 ∧ twoModSys.connections = [] :=
  ⟨rfl, rfl, rfl, by decide, by decide, rfl⟩

/-- C3 amended: connect validates only that both module names are
registered; the slot indices are never range-checked, and any index
values are accepted, the connection being appended to the list. -/
theorem connect_checks_names_only (sys : ModularSystem) (f : String)
    (oi : Nat) (t : String) (ii : Nat)
    (hf : sys.modules.any (fun p => p.1 == f) = true)
    (ht : sys.modules.any (fun p => p.1 == t) = true) :
    sys.connect f oi t ii =
      .ok { sys with connections :=
              sys.connections ++ [⟨f, oi, t, ii⟩] } := by
  simp [ModularSystem.connect, hf, ht]

/-- Witness for C3 amended on the concrete two-module graph with indices
far beyond the declared counts. -/
theorem connect_checks_names_only_witness :
    twoModSys.modules.any (fun p => p.1 == "a") = true ∧
    twoModSys.modules.any (fun p => p.1 == "b") = true ∧
    twoModSys.connect "a" 5 "b" 7 =
      .ok { twoModSys with connections :=
              twoModSys.connections ++ [⟨"a", 5, "b", 7⟩] } :=
  ⟨rfl, rfl, connect_checks_names_only twoModSys "a" 5 "b" 7 rfl rfl⟩

/-- C8 counterexample: on a graph whose connection list is
[(x,0,y,0), (z,0,y,0)], connect("x",0,"y",0) followed by
disconnect("x",0,"y",0) yields [(z,0,y,0), (x,0,y,0)] - disconnect
removed the FIRST copy, so the list is not restored to its pre-connect
state. -/
theorem connect_disconnect_duplicate_reorders :
    (dupConnSys.connect "x" 0 "y" 0).map
        (fun s => (s.disconnect "x" 0 "y" 0).connections) =
      .ok [⟨"z", 0, "y", 0⟩, ⟨"x", 0, "y", 0⟩] ∧
    dupConnSys.connections = [⟨"x", 0, "y", 0⟩, ⟨"z", 0, "y", 0⟩] ∧
    ([⟨"z", 0, "y", 0⟩, ⟨"x", 0, "y", 0⟩] : List Connection) ≠
      [⟨"x", 0, "y", 0⟩, ⟨"z", 0, "y", 0⟩] :=
  ⟨rfl, rfl, by decide⟩

/-- C8 amended: when the exact tuple is NOT already present in the
connection list, connect immediately followed by disconnect of the same
tuple restores the engine state exactly; and disconnect of an absent
exact tuple is a no-op. -/
theorem connect_disconnect_restores_when_absent (sys : ModularSystem)
    (f : String) (oi : Nat) (t : String) (ii : Nat)
    (h : (⟨f, oi, t, ii⟩ : Connection) ∉ sys.connections) :
    (sys.modules.any (fun p => p.1 == f) = true →
     sys.modules.any (fun p => p.1 == t) = true →
     (sys.connect f oi t ii).map (fun s2 => s2.disconnect f oi t ii) =
       .ok sys) ∧
    sys.disconnect f oi t ii = sys := by
  constructor
  · intro hf ht
    simp only [ModularSystem.connect, hf, ht, Bool.true_eq_false,
      not_true_eq_false, if_false, ite_false, not_false_eq_true, if_true,
      Except.map, ModularSystem.disconnect]
    rw [eraseFirst_append_self _ _ h]
  · show { sys with connections := eraseFirst sys.connections _ } = sys
    rw [eraseFirst_of_not_mem _ _ h]

/-- Witness for C8 amended on the empty-connection two-module graph. -/
theorem connect_disconnect_restores_when_absent_witness :
    ((⟨"a", 0, "b", 0⟩ : Connection) ∉ twoModSys.connections) ∧
    (twoModSys.connect "a" 0 "b" 0).map
        (fun s2 => s2.disconnect "a" 0 "b" 0) = .ok twoModSys ∧
    twoModSys.disconnect "a" 0 "b" 0 = twoModSys :=
  ⟨by decide,
   (connect_disconnect_restores_when_absent twoModSys "a" 0 "b" 0
       (by decide)).1 rfl rfl,
   (connect_disconnect_restores_when_absent twoModSys "a" 0 "b" 0
       (by decide)).2⟩

theorem fmodQ_nonneg_lt (x w : ℚ) (hx : 0 ≤ x) (hw : 0 < w) :
    0 ≤ fmodQ x w ∧ fmodQ x w < w := by
  have hw0 : w ≠ 0 := ne_of_gt hw
  have key : fmodQ x w = w * Int.fract (x / w) := by
    rw [fmodQ, if_pos hx, Int.fract, mul_sub, mul_comm w (x / w),
      div_mul_cancel₀ x hw0]
  rw [key]
  exact ⟨mul_nonneg hw.le (Int.fract_nonneg _),
    mul_lt_of_lt_one_right hw (Int.fract_lt_one _)⟩

/-- C5 counterexample: a single phase-accumulator step from phase 0 with
a per-sample increment of -1/2 (a negative control/modulation input) and
wrap 1 stores phase -1/2, outside [0, wrap): C fmod keeps the sign of
its dividend. -/
theorem phasor_negative_increment_escapes_range :
    phasorComputeSample 0 (-(1/2)) 1 = -(1/2) ∧
    ¬ (0 ≤ phasorComputeSample 0 (-(1/2)) 1 ∧
        phasorComputeSample 0 (-(1/2)) 1 < 1) := by
  have h : phasorComputeSample 0 (-(1/2)) 1 = -(1/2) := by
    norm_num [phasorComputeSample, fmodQ]
  refine ⟨h, ?_⟩
  rw [h]
  norm_num

/-- C5 amended: the stored phase lies in [0, period) after a step only
under increment preconditions - for the phase accumulator, a nonnegative
pre-step phase and a nonnegative per-sample increment; for the
oscillators, a pre-step phase in [0, 2pi) and an increment in [0, 2pi)
(wrapPhaseScalar subtracts the period at most once and ignores negative
phases). -/
theorem phase_step_stays_in_range (phase inc wrap p2 inc2 twoPi : ℚ) :
    (0 ≤ phase → 0 ≤ inc → 0 < wrap →
      0 ≤ phasorComputeSample phase inc wrap ∧
      phasorComputeSample phase inc wrap < wrap) ∧
    (0 ≤ p2 → p2 < twoPi → 0 ≤ inc2 → inc2 < twoPi →
      0 ≤ wrapPhaseScalar twoPi (p2 + inc2) ∧
      wrapPhaseScalar twoPi (p2 + inc2) < twoPi) := by
  constructor
  · intro h1 h2 h3
    simpa [phasorComputeSample] using
      fmodQ_nonneg_lt (phase + inc) wrap (add_nonneg h1 h2) h3
  · intro h1 h2 h3 h4
    unfold wrapPhaseScalar
    split_ifs with h
    · exact ⟨by linarith, by linarith⟩
    · push_neg at h
      exact ⟨by linarith, h⟩

/-- Witness for C5 amended: a phasor step from 0 by 1/4 with wrap 1, and
an oscillator wrap step from 5 by 4 with period 6. -/
theorem phase_step_stays_in_range_witness :
    (0:ℚ) ≤ 0 ∧ (0:ℚ) ≤ 1/4 ∧ (0:ℚ) < 1 ∧
    (0:ℚ) ≤ 5 ∧ (5:ℚ) < 6 ∧ (0:ℚ) ≤ 4 ∧ (4:ℚ) < 6 ∧
    (0 ≤ phasorComputeSample 0 (1/4) 1 ∧
      phasorComputeSample 0 (1/4) 1 < 1) ∧
    (0 ≤ wrapPhaseScalar 6 (5 + 4) ∧ wrapPhaseScalar 6 (5 + 4) < 6) :=
  ⟨by norm_num, by norm_num, by norm_num, by norm_num, by norm_num,
   by norm_num, by norm_num,
   (phase_step_stays_in_range 0 (1/4) 1 5 4 6).1 (by norm_num)
     (by norm_num) (by norm_num),
   (phase_step_stays_in_range 0 (1/4) 1 5 4 6).2 (by norm_num)
     (by norm_num) (by norm_num) (by norm_num)⟩

theorem performLoop_eq_phasorPerformT (inc w : ℚ) :
    ∀ (n : Nat) (phase : ℚ),
      performLoop inc w n phase = phasorPerformT inc w n phase := by
  intro n
  induction n with
  | zero => intro phase; rfl
  | succ k ih => intro phase; simp [performLoop, phasorPerformT, ih]

theorem phasorPerformT_add (inc w : ℚ) (a b : Nat) :
    ∀ phase : ℚ, phasorPerformT inc w (a + b) phase =
      ((phasorPerformT inc w a phase).1 ++
        (phasorPerformT inc w b (phasorPerformT inc w a phase).2).1,
       (phasorPerformT inc w b (phasorPerformT inc w a phase).2).2) := by
  induction a with
  | zero => intro phase; simp [phasorPerformT]
  | succ k ih =>
    intro phase
    have hs : k + 1 + b = (k + b) + 1 := by omega
    rw [hs]
    simp [phasorPerformT, ih]

theorem perform8Groups_eq (inc w : ℚ) :
    ∀ (g : Nat) (phase : ℚ),
      perform8Groups inc w g phase = phasorPerformT inc w (8 * g) phase := by
  intro g
  induction g with
  | zero => intro phase; rfl
  | succ k ih =>
    intro phase
    have h8 : 8 * (k + 1) = 8 + 8 * k := by ring
    rw [h8, phasorPerformT_add]
    simp [perform8Groups, ih]

/-- C6 counterexample: with initial phase 0, increment 1/4, wrap 1 and a
one-sample block (n = 1, not a multiple of 8), perform writes the sample
1/4 and advances the phase to 1/4, while perform8 runs n / 8 = 0 groups:
it writes nothing (the buffer keeps its stale 7) and leaves the phase at
0. The two modes disagree on both the samples and the final phase. -/
theorem perform8_drops_remainder :
    Phasor.perform 1 ⟨0, 1/4, 0⟩ [7] 1 ≠ Phasor.perform8 1 ⟨0, 1/4, 0⟩ [7] 1 ∧
    (Phasor.perform 1 ⟨0, 1/4, 0⟩ [7] 1).2 = [1/4] ∧
    (Phasor.perform8 1 ⟨0, 1/4, 0⟩ [7] 1).2 = [7] ∧
    (Phasor.perform 1 ⟨0, 1/4, 0⟩ [7] 1).1.phase = 1/4 ∧
    (Phasor.perform8 1 ⟨0, 1/4, 0⟩ [7] 1).1.phase = 0 := by
  have hv : phasorComputeSample 0 (1/4) 1 = 1/4 := by
    norm_num [phasorComputeSample, fmodQ]
  have e1 : Phasor.perform 1 ⟨0, 1/4, 0⟩ [7] 1 =
      (⟨phasorComputeSample 0 (1/4) 1, 1/4, 0⟩,
       [phasorComputeSample 0 (1/4) 1]) := rfl
  have e2 : Phasor.perform8 1 ⟨0, 1/4, 0⟩ [7] 1 = (⟨0, 1/4, 0⟩, [7]) := rfl
  refine ⟨?_, ?_, ?_, ?_, ?_⟩
  · rw [e1, e2, hv]
    intro hc
    have h2 : (1/4 : ℚ) = 0 := congrArg (fun q => q.1.phase) hc
    norm_num at h2
  · rw [e1, hv]
  · rw [e2]
  · rw [e1, hv]
  · rw [e2]

/-- C6 amended: the scalar mode (perform) and the unrolled batch mode
(perform8) write identical sample sequences and reach the same final
phase whenever the block length n is a multiple of 8; for other n,
perform8 processes only the first 8 * (n / 8) samples (see the
counterexample). -/
theorem perform8_eq_perform_of_eight_dvd (wrap : ℚ) (p : Phasor)
    (out : List ℚ) (n : Nat) (h : n % 8 = 0) :
    Phasor.perform8 wrap p out n = Phasor.perform wrap p out n := by
  have hn : 8 * (n / 8) = n :=
    Nat.mul_div_cancel' (Nat.dvd_of_mod_eq_zero h)
  unfold Phasor.perform Phasor.perform8
  rw [perform8Groups_eq, performLoop_eq_phasorPerformT, hn]

/-- Witness for C6 amended at n = 16. -/
theorem perform8_eq_perform_of_eight_dvd_witness :
    16 % 8 = 0 ∧
    Phasor.perform8 1 ⟨0, 1/4, 0⟩ (List.replicate 16 0) 16 =
      Phasor.perform 1 ⟨0, 1/4, 0⟩ (List.replicate 16 0) 16 :=
  ⟨by decide,
   perform8_eq_perform_of_eight_dvd 1 ⟨0, 1/4, 0⟩ (List.replicate 16 0) 16
     (by decide)⟩

theorem foldl_setupStep_length (registry : List (String × ModuleImpl))
    (bufs : List (List ℚ)) (name : String) :
    ∀ (conns : List Connection) (init : List (Option (List ℚ))),
      (conns.foldl (setupStep registry bufs name) init).length =
        init.length := by
  intro conns
  induction conns with
  | nil => intro init; rfl
  | cons c cs ih =>
    intro init
    rw [List.foldl_cons, ih]
    unfold setupStep
    split_ifs <;> simp [List.length_set]

theorem setupInputs_last_match_aux (registry : List (String × ModuleImpl))
    (bufs : List (List ℚ)) (name : String) (k : Nat)
    (conns : List Connection) :
    ∀ (init : List (Option (List ℚ))), k < init.length →
      (conns.foldl (setupStep registry bufs name) init).getD k none =
        ((slotConns conns registry name k).getLast?).elim
          (init.getD k none)
          (fun c =>
            some (bufs.getD (moduleIndex registry c.fromModule) [])) := by
  induction conns using List.reverseRecOn with
  | nil => intro init hk; simp [slotConns]
  | append_singleton l c ih =>
    intro init hk
    rw [List.foldl_append, List.foldl_cons, List.foldl_nil]
    by_cases hc1 : (c.toModule == name &&
        registry.any (fun m => m.1 == c.fromModule)) = true
    · by_cases hc2 : c.inputIndex = k
      · have hstep : setupStep registry bufs name
            (l.foldl (setupStep registry bufs name) init) c =
            (l.foldl (setupStep registry bufs name) init).set k
              (some (bufs.getD (moduleIndex registry c.fromModule) [])) := by
          simp [setupStep, hc1, hc2]
        rw [hstep]
        have hfil : slotConns (l ++ [c]) registry name k =
            slotConns l registry name k ++ [c] := by
          simp [slotConns, List.filter_append, List.filter_cons, hc1, hc2]
        rw [hfil, List.getLast?_concat]
        have hk2 : k <
            (l.foldl (setupStep registry bufs name) init).length := by
          rw [foldl_setupStep_length]; exact hk
        rw [List.getD_eq_getElem?_getD,
          List.getElem?_set_eq_of_lt _ hk2]
        rfl
      · have hstep : setupStep registry bufs name
            (l.foldl (setupStep registry bufs name) init) c =
            (l.foldl (setupStep registry bufs name) init).set c.inputIndex
              (some (bufs.getD (moduleIndex registry c.fromModule) [])) := by
          simp [setupStep, hc1]
        rw [hstep]
        have hfil : slotConns (l ++ [c]) registry name k =
            slotConns l registry name k := by
          have hne : (c.inputIndex == k) = false :=
            beq_eq_false_iff_ne.mpr hc2
          simp [slotConns, List.filter_append, List.filter_cons, hne]
        rw [hfil, List.getD_eq_getElem?_getD, List.getElem?_set_ne hc2,
          ← List.getD_eq_getElem?_getD]
        exact ih init hk
    · have hstep : setupStep registry bufs name
          (l.foldl (setupStep registry bufs name) init) c =
          l.foldl (setupStep registry bufs name) init := by
        simp [setupStep, hc1]
      rw [hstep]
      rw [Bool.not_eq_true] at hc1
      have hfil : slotConns (l ++ [c]) registry name k =
          slotConns l registry name k := by
        simp [slotConns, List.filter_append, List.filter_cons, hc1]
      rw [hfil]
      exact ih init hk

/-- C1 amended: the input gathering of process does not sum the
connections into a destination slot - it assigns them in connection-list
order, so the slot receives exactly the producer buffer of the LAST
connection in the list targeting it (with an existing source module), or
no buffer when no connection targets it. -/
theorem setupInputs_last_match (conns : List Connection)
    (registry : List (String × ModuleImpl)) (bufs : List (List ℚ))
    (name : String) (numInputs k : Nat) (hk : k < numInputs) :
    (setupInputs conns registry bufs name numInputs).getD k none =
      ((slotConns conns registry name k).getLast?).map
        (fun c => bufs.getD (moduleIndex registry c.fromModule) []) := by
  have hlen : k <
      (List.replicate numInputs (none : Option (List ℚ))).length := by
    simpa using hk
  rw [setupInputs, setupInputs_last_match_aux registry bufs name k conns _
    hlen]
  have hrep :
      (List.replicate numInputs (none : Option (List ℚ))).getD k none =
        none := by
    rw [List.getD_eq_getElem?_getD, List.getElem?_replicate]
    split_ifs <;> rfl
  rw [hrep]
  cases (slotConns conns registry name k).getLast? <;> rfl

/-- Witness for C1 amended on the two-producer graph: slot 0 of node c
receives the buffer selected by the last matching connection. -/
theorem setupInputs_last_match_witness :
    0 < 1 ∧
    (setupInputs sumSys.connections sumSys.modules
        [[3/10, 3/10], [2/5, 2/5], [0, 0]] "c" 1).getD 0 none =
      ((slotConns sumSys.connections sumSys.modules "c" 0).getLast?).map
        (fun c => [[(3:ℚ)/10, 3/10], [2/5, 2/5], [0, 0]].getD
            (moduleIndex sumSys.modules c.fromModule) []) :=
  ⟨by decide,
   setupInputs_last_match sumSys.connections sumSys.modules
     [[3/10, 3/10], [2/5, 2/5], [0, 0]] "c" 1 0 (by decide)⟩

/-- C1 counterexample: in the graph where a emits 0.3 and b emits 0.4
into the same input slot of the pass-through node c, the block c
receives (and outputs) is [0.4, 0.4] - the last connection won - and not
the sum [0.7, 0.7] the claim requires. -/
theorem process_last_connection_wins :
    (sumSys.process 2).audioBuffers =
      [[3/10, 3/10], [2/5, 2/5], [2/5, 2/5]] ∧
    (3/10 : ℚ) + 2/5 = 7/10 ∧
    ([(2:ℚ)/5, 2/5] : List ℚ) ≠ [7/10, 7/10] :=
  ⟨rfl, by norm_num, by norm_num⟩

/-- C2 counterexample: on the two-module feedback graph (a into b and b
into a, no designated break), process(2) does not fail - there is no
cycle detection and no GraphCycleError anywhere in the engine - it
returns normally with both blocks computed (all zeros, each node having
read the freshly zeroed buffer of the other). -/
theorem process_cycle_silently_proceeds :
    (cycleSys.process 2).audioBuffers = [[0, 0], [0, 0]] ∧
    (cycleSys.process 2).connections = cycleSys.connections :=
  ⟨rfl, rfl⟩

/-- C2 amended: process performs no cycle detection: on the cyclic
two-module graph it terminates normally for every block length n (it
never hangs), silently producing a full n-sample block for each module
and leaving the graph unchanged. -/
theorem process_cycle_terminates (n : Nat) :
    (cycleSys.process n).audioBuffers =
      [List.replicate n 0, List.replicate n 0] ∧
    (cycleSys.process n).connections = cycleSys.connections := by
  refine ⟨?_, rfl⟩
  simp [cycleSys, ModularSystem.process, resizeBuffers, resizeList,
    processModules, setupInputs, setupStep, moduleIndex, passModule,
    List.foldl, List.findIdx_cons]

end tinysynth
